import Mathlib

/-!
Shallow embedding of the eco-nest offline-first sync core.

Client side (SQLite queue, habit logging, sync engine):
  - services/database.ts   (src/unnamed/part_002): habits_queue, user_stats helpers
  - services/habit-service.ts: logHabit, undoLastLog, updateStreak
  - services/sync-service.ts: syncPendingItems, handleConflict, getRemainingCooldown

Server side (Convex):
  - src/unnamed/part_020: processHabitLog, syncBatch, getClosestCompetitors

Machine integers are modelled as Nat (timestamps, counters, ids) and Int
(wire point values, which the server range-checks).  Calendar dates, which
the source compares as YYYY-MM-DD strings, are modelled as Nat day indices
(the string comparison used by the source is equality only, and the day
strings are order-isomorphic to day numbers).  Fallible operations return
Except.  The network transport is passed in as an explicit function so the
sync engine is a pure state transformer.
-/

namespace EcoNest

/-- Lifecycle status of a queue entry (habits_queue.status). -/
inductive Status
  | pending
  | synced
  | failed
deriving DecidableEq, Repr

/-- One row of habits_queue.  payload_json is modelled by its parsed fields
(habitType, points, loggedAt); created_at, synced_at, server_id, attempts and
error_message follow the SQLite schema in services/database.ts. -/
structure QueueEntry where
  id : Nat
  habitType : String
  points : Nat
  loggedAt : Nat
  createdAt : Nat
  status : Status
  syncedAt : Option Nat
  serverId : Option Nat
  attempts : Nat
  errorMessage : Option String
deriving DecidableEq, Repr

/-- Local persistent state: the habits_queue table plus the singleton
user_stats row (total_eco_points, unsynced_count, last_sync_at). -/
structure LocalState where
  queue : List QueueEntry
  total_eco_points : Nat
  unsynced_count : Nat
  last_sync_at : Option Nat
deriving DecidableEq, Repr

/-- insertHabitLog (services/database.ts): INSERT a pending row and increment
user_stats.unsynced_count in the same call. -/
def insertHabitLog (s : LocalState) (id : Nat) (habitType : String)
    (points loggedAt now : Nat) : LocalState :=
  { s with
    queue := s.queue ++
      [{ id := id, habitType := habitType, points := points, loggedAt := loggedAt,
         createdAt := now, status := .pending, syncedAt := none, serverId := none,
         attempts := 0, errorMessage := none }],
    unsynced_count := s.unsynced_count + 1 }

/-- The row update performed by updateHabitLogStatus: SET status, synced_at,
server_id, error_message, attempts = attempts + 1. -/
def setStatusRow (st : Status) (now : Nat) (serverId : Option Nat)
    (errorMessage : Option String) (e : QueueEntry) : QueueEntry :=
  { e with status := st, syncedAt := some now, serverId := serverId,
           errorMessage := errorMessage, attempts := e.attempts + 1 }

/-- updateHabitLogStatus (services/database.ts): UPDATE the row with the given
id, then decrement unsynced_count (clamped at 0) exactly when the new status
is synced.  The source only ever passes synced or failed for st. -/
def updateHabitLogStatus (s : LocalState) (id : Nat) (st : Status)
    (serverId : Option Nat) (errorMessage : Option String) (now : Nat) : LocalState :=
  { s with
    queue := s.queue.map (fun e =>
      if e.id = id then setStatusRow st now serverId errorMessage e else e),
    unsynced_count := if st = .synced then s.unsynced_count - 1 else s.unsynced_count }

/-- deleteHabitLog (services/database.ts): read the row status first, DELETE
the row, and decrement unsynced_count only if the row was pending. -/
def deleteHabitLog (s : LocalState) (id : Nat) : LocalState :=
  let wasPending :=
    match s.queue.find? (fun e => decide (e.id = id)) with
    | some e => decide (e.status = Status.pending)
    | none => false
  { s with
    queue := s.queue.filter (fun e => decide (e.id ≠ id)),
    unsynced_count := if wasPending then s.unsynced_count - 1 else s.unsynced_count }

/-- getPendingHabitLogs (services/database.ts): SELECT rows with
status = pending ORDER BY created_at ASC LIMIT limit. -/
def getPendingHabitLogs (s : LocalState) (limit : Nat) : List QueueEntry :=
  (((s.queue.filter (fun e => decide (e.status = Status.pending))).insertionSort
      (fun a b => a.createdAt ≤ b.createdAt)).take limit)

/-- logHabit (services/habit-service.ts), state effect: insertHabitLog with a
fresh id and payload, then total_eco_points := total_eco_points + points.
The debounce and daily-cap guards reject without touching state, and base
points are drawn from the PRNG; both are inputs here (points is the already
computed base + bonus value). -/
def logHabit (s : LocalState) (id : Nat) (habitType : String)
    (points now : Nat) : LocalState :=
  let s1 := insertHabitLog s id habitType points now now
  { s1 with total_eco_points := s1.total_eco_points + points }

/-- undoLastLog (services/habit-service.ts): look the row up (throw Log not
found if absent), delete it via deleteHabitLog, and set
total_eco_points := max 0 (total - points); Nat subtraction is that max. -/
def undoLastLog (s : LocalState) (logId : Nat) : Except String LocalState :=
  match s.queue.find? (fun e => decide (e.id = logId)) with
  | none => .error "Log not found"
  | some log =>
    let s1 := deleteHabitLog s logId
    .ok { s1 with total_eco_points := s1.total_eco_points - log.points }

/-- Streak record for one habit type (streaks table row, the fields
updateStreak reads and writes). -/
structure StreakData where
  current_streak : Nat
  last_logged_date : Nat
deriving DecidableEq, Repr

/-- updateStreak (services/habit-service.ts).  Dates are day indices: the
source compares YYYY-MM-DD strings for equality against today and yesterday,
so last_logged_date + 1 = today models last = yesterday.  No record: start at
1.  Last logged today: keep the streak.  Last logged yesterday: increment.
Anything else: reset to 1. -/
def updateStreak (sd : Option StreakData) (today : Nat) : StreakData :=
  match sd with
  | none => { current_streak := 1, last_logged_date := today }
  | some d =>
    if d.last_logged_date = today then
      { current_streak := d.current_streak, last_logged_date := today }
    else if d.last_logged_date + 1 = today then
      { current_streak := d.current_streak + 1, last_logged_date := today }
    else
      { current_streak := 1, last_logged_date := today }

/-! Sync engine: services/sync-service.ts (the module imported by the app as
services/sync-service).  The Convex mutation call is modelled by an explicit
transport function; cooldown bookkeeping lives in SyncSvc. -/

/-- Per-item verdict status on the wire (accepted | conflict | error). -/
inductive Verdict
  | accepted
  | conflict
  | error
deriving DecidableEq, Repr

/-- Payload fields the server stores and surfaces back on a conflict. -/
structure ServerPayload where
  habitType : String
  pointsAwarded : Int
  loggedAt : Nat
deriving DecidableEq, Repr

/-- One element of the sync request (SyncItem in sync-service.ts; type is
always the literal habit, enforced by the wire validator). -/
structure SyncItem where
  id : Nat
  habitType : String
  pointsAwarded : Int
  loggedAt : Nat
  createdAt : Nat
deriving DecidableEq, Repr

/-- One element of the sync response (SyncItemResult). -/
structure SyncItemResult where
  id : Nat
  status : Verdict
  serverId : Option Nat
  message : Option String
  serverData : Option ServerPayload
deriving DecidableEq, Repr

/-- ConflictItem surfaced to the caller: local payload next to server data. -/
structure ConflictItem where
  id : Nat
  localHabitType : String
  localPoints : Nat
  serverData : Option ServerPayload
deriving DecidableEq, Repr

/-- ErrorItem surfaced to the caller. -/
structure ErrorItem where
  id : Nat
  message : String
deriving DecidableEq, Repr

/-- Aggregate result of one sync call (uploaded count, conflicts, errors). -/
structure SyncResult where
  uploaded : Nat
  conflicts : List ConflictItem
  errors : List ErrorItem
deriving DecidableEq, Repr

/-- In-memory service state of the SyncService singleton: the process-local
lastSyncTimestamp and whether setConvexClient was called. -/
structure SyncSvc where
  lastSyncTimestamp : Nat
  configured : Bool
deriving DecidableEq, Repr

/-- Errors syncPendingItems can throw: the cooldown message with remaining
seconds, the not-configured message, and the aggregate transport error. -/
inductive SyncError
  | cooldown (remainingSeconds : Nat)
  | notConfigured
  | aggregate (msg : String)
deriving DecidableEq, Repr

deriving instance DecidableEq for Except

/-- Result record of one syncPendingItems call: the updated service state,
the updated local database state, and the returned value or thrown error. -/
structure SyncAttempt where
  svc : SyncSvc
  state : LocalState
  outcome : Except SyncError SyncResult
deriving DecidableEq, Repr

/-- SYNC_COOLDOWN_MS in sync-service.ts. -/
def SYNC_COOLDOWN_MS : Nat := 5000

/-- Math.ceil (a / b) on the nonnegative values the source divides. -/
def ceilDiv (a b : Nat) : Nat := (a + b - 1) / b

/-- Conversion of a queue row to a wire item (id, payload, createdAt). -/
def toSyncItem (e : QueueEntry) : SyncItem :=
  { id := e.id, habitType := e.habitType, pointsAwarded := (e.points : Int),
    loggedAt := e.loggedAt, createdAt := e.createdAt }

/-- One step of processResults (sync-service.ts): accepted rows are marked
synced and counted; conflict rows are looked up locally, surfaced, and marked
failed with the conflict message; error rows are marked failed with the
server message and surfaced. -/
def processOneResult (now : Nat) (acc : LocalState × SyncResult)
    (r : SyncItemResult) : LocalState × SyncResult :=
  match r.status with
  | .accepted =>
      (updateHabitLogStatus acc.1 r.id .synced r.serverId none now,
       { acc.2 with uploaded := acc.2.uploaded + 1 })
  | .conflict =>
      match acc.1.queue.find? (fun e => decide (e.id = r.id)) with
      | some localItem =>
          (updateHabitLogStatus acc.1 r.id .failed none
             (some (r.message.getD "Conflict detected")) now,
           { acc.2 with conflicts := acc.2.conflicts ++
               [{ id := r.id, localHabitType := localItem.habitType,
                  localPoints := localItem.points, serverData := r.serverData }] })
      | none => acc
  | .error =>
      (updateHabitLogStatus acc.1 r.id .failed none
         (some (r.message.getD "Server error")) now,
       { acc.2 with errors := acc.2.errors ++
           [{ id := r.id, message := r.message.getD "Unknown error" }] })

/-- processResults (sync-service.ts): fold processOneResult over the
response, starting from zero counts. -/
def processResults (s : LocalState) (results : List SyncItemResult)
    (now : Nat) : LocalState × SyncResult :=
  results.foldl (processOneResult now) (s, { uploaded := 0, conflicts := [], errors := [] })

/-- syncPendingItems (services/sync-service.ts).  Order of the source: the
cooldown check against lastSyncTimestamp, the configured-client check, batch
selection of up to 50 pending rows, early empty success, the transport call,
and on transport success processResults plus lastSyncTimestamp := now; on
transport failure every selected row is marked failed with the error message
and the aggregate error is thrown.  The transport is the Convex mutation
sync:syncBatch as a function of the request items. -/
def syncPendingItems (svc : SyncSvc) (s : LocalState) (now : Nat)
    (transport : List SyncItem → Except String (List SyncItemResult)) : SyncAttempt :=
  if now - svc.lastSyncTimestamp < SYNC_COOLDOWN_MS then
    { svc := svc, state := s,
      outcome := .error (.cooldown
        (ceilDiv (SYNC_COOLDOWN_MS - (now - svc.lastSyncTimestamp)) 1000)) }
  else if !svc.configured then
    { svc := svc, state := s, outcome := .error .notConfigured }
  else
    let pendingLogs := getPendingHabitLogs s 50
    if pendingLogs.isEmpty then
      { svc := svc, state := s,
        outcome := .ok { uploaded := 0, conflicts := [], errors := [] } }
    else
      match transport (pendingLogs.map toSyncItem) with
      | .ok results =>
          let pr := processResults s results now
          { svc := { svc with lastSyncTimestamp := now },
            state := { pr.1 with last_sync_at := some now },
            outcome := .ok pr.2 }
      | .error msg =>
          { svc := svc,
            state := pendingLogs.foldl
              (fun st log => updateHabitLogStatus st log.id .failed none (some msg) now) s,
            outcome := .error (.aggregate "No connection — saved locally") }

/-- getRemainingCooldown (sync-service.ts): 0 once 5000 ms have elapsed,
otherwise Math.ceil (remaining ms / 1000). -/
def getRemainingCooldown (svc : SyncSvc) (now : Nat) : Nat :=
  if SYNC_COOLDOWN_MS ≤ now - svc.lastSyncTimestamp then 0
  else ceilDiv (SYNC_COOLDOWN_MS - (now - svc.lastSyncTimestamp)) 1000

/-- Conflict resolution choice (local keeps the client row, server accepts
the server version). -/
inductive Resolution
  | keepLocal
  | useServer
deriving DecidableEq, Repr

/-- handleConflict (sync-service.ts): throw if the row is absent; keepLocal
sets status = pending and clears error_message by raw UPDATE (attempts and
unsynced_count untouched); useServer calls updateHabitLogStatus synced with
the resolution note. -/
def handleConflict (s : LocalState) (itemId : Nat) (res : Resolution)
    (now : Nat) : Except String LocalState :=
  match s.queue.find? (fun e => decide (e.id = itemId)) with
  | none => .error "Conflict item not found"
  | some _ =>
    match res with
    | .keepLocal =>
        .ok { s with queue := s.queue.map (fun e =>
          if e.id = itemId then { e with status := .pending, errorMessage := none } else e) }
    | .useServer =>
        .ok (updateHabitLogStatus s itemId .synced none
          (some "Resolved: used server data") now)

/-! Server side: the Convex sync mutation and leaderboard queries in
src/unnamed/part_020. -/

/-- VALID_HABIT_TYPES whitelist. -/
def VALID_HABIT_TYPES : List String :=
  ["recycle", "bike", "meatless", "reusable", "compost", "water", "custom"]

/-- BASE_POINTS_MIN. -/
def BASE_POINTS_MIN : Int := 5
/-- BASE_POINTS_MAX. -/
def BASE_POINTS_MAX : Int := 20
/-- DAILY_CAP_PER_CATEGORY. -/
def DAILY_CAP_PER_CATEGORY : Int := 50
/-- STREAK_BONUS_14_DAYS, the maximum single bonus. -/
def STREAK_BONUS_14_DAYS : Int := 20

/-- One habit_logs document: server id, owner, category, validated points,
client idempotency key, client timestamp, validation flag. -/
structure LedgerLog where
  serverId : Nat
  userId : Nat
  habitType : String
  pointsAwarded : Int
  clientId : Nat
  loggedAt : Nat
  validated : Bool
deriving DecidableEq, Repr

/-- One users document (the fields the sync and ranking code touches). -/
structure SUser where
  id : Nat
  displayName : String
  ecoPoints : Int
  isAnonymous : Bool
  lastActive : Nat
deriving DecidableEq, Repr

/-- One sync_batches document (owner, itemCount, completion status). -/
structure SyncBatchRecord where
  userId : Nat
  itemCount : Nat
  status : String
deriving DecidableEq, Repr

/-- Server database state; nextId models document id assignment by insert. -/
structure ServerState where
  logs : List LedgerLog
  users : List SUser
  batches : List SyncBatchRecord
  nextId : Nat
deriving DecidableEq, Repr

/-- The by_clientId index lookup: first habit_logs document with the given
clientId.  The source does not restrict the lookup to the submitting user. -/
def findByClientId (logs : List LedgerLog) (cid : Nat) : Option LedgerLog :=
  logs.find? (fun l => decide (l.clientId = cid))

/-- getTodayLogsForHabit (part_020): sum of pointsAwarded over this user's
habit_logs of this category with loggedAt at or after the start of the
server's current day. -/
def getTodayLogsForHabit (s : ServerState) (userId : Nat) (habitType : String)
    (todayStart : Nat) : Int :=
  ((s.logs.filter (fun l =>
      decide (l.userId = userId ∧ todayStart ≤ l.loggedAt ∧ l.habitType = habitType))).map
    (fun l => l.pointsAwarded)).sum

/-- processHabitLog (part_020), in source order: whitelist check, dedup by
clientId (conflict surfaces the stored habitType, points and loggedAt),
claimed-points range check against [BASE_POINTS_MIN,
BASE_POINTS_MAX + STREAK_BONUS_14_DAYS], daily-cap check (at or above the cap
is an error), clamping of the accepted points to the remaining headroom,
insertion of the validated log, and the ecoPoints and lastActive patch of the
owning user. -/
def processHabitLog (s : ServerState) (userId : Nat) (item : SyncItem)
    (todayStart now : Nat) : ServerState × SyncItemResult :=
  if item.habitType ∉ VALID_HABIT_TYPES then
    (s, { id := item.id, status := .error, serverId := none,
          message := some ("Invalid habit type: " ++ item.habitType), serverData := none })
  else
    match findByClientId s.logs item.id with
    | some existingLog =>
        (s, { id := item.id, status := .conflict, serverId := some existingLog.serverId,
              message := some "Log already exists on server",
              serverData := some { habitType := existingLog.habitType,
                                   pointsAwarded := existingLog.pointsAwarded,
                                   loggedAt := existingLog.loggedAt } })
    | none =>
      if item.pointsAwarded < BASE_POINTS_MIN ∨
          BASE_POINTS_MAX + STREAK_BONUS_14_DAYS < item.pointsAwarded then
        (s, { id := item.id, status := .error, serverId := none,
              message := some ("Invalid points awarded: " ++ toString item.pointsAwarded),
              serverData := none })
      else
        let todayPoints := getTodayLogsForHabit s userId item.habitType todayStart
        if DAILY_CAP_PER_CATEGORY ≤ todayPoints then
          (s, { id := item.id, status := .error, serverId := none,
                message := some ("Daily cap reached for " ++ item.habitType ++ " (50 points)"),
                serverData := none })
        else
          let validatedPoints :=
            if DAILY_CAP_PER_CATEGORY < todayPoints + item.pointsAwarded then
              DAILY_CAP_PER_CATEGORY - todayPoints
            else item.pointsAwarded
          let logId := s.nextId
          ({ s with
             logs := s.logs ++
               [{ serverId := logId, userId := userId, habitType := item.habitType,
                  pointsAwarded := validatedPoints, clientId := item.id,
                  loggedAt := item.loggedAt, validated := true }],
             nextId := s.nextId + 1,
             users := s.users.map (fun u =>
               if u.id = userId then
                 { u with ecoPoints := u.ecoPoints + validatedPoints, lastActive := now }
               else u) },
           { id := item.id, status := .accepted, serverId := some logId,
             message := none, serverData := none })

/-- The body of the item loop of syncBatch (part_020): process one item and
append its result.  The item type is always the literal habit on this wire,
so the unknown-type branch of the source loop is unreachable. -/
def syncFoldStep (userId todayStart now : Nat)
    (acc : ServerState × List SyncItemResult) (item : SyncItem) :
    ServerState × List SyncItemResult :=
  let step := processHabitLog acc.1 userId item todayStart now
  (step.1, acc.2 ++ [step.2])

/-- syncBatch (part_020): throws (none) when the user does not exist; takes
the first 50 items, records a sync_batches document, folds processHabitLog
over the taken items accumulating one result per item, and finishes the
batch record as failed when any result is an error, completed otherwise.
The batch record is modelled with its final status; its transient
processing value is never observable in the returned state. -/
def syncBatch (s : ServerState) (userId : Nat) (items : List SyncItem)
    (todayStart now : Nat) : Option (ServerState × List SyncItemResult) :=
  match s.users.find? (fun u => decide (u.id = userId)) with
  | none => none
  | some _ =>
    let itemsToProcess := items.take 50
    let folded := itemsToProcess.foldl (syncFoldStep userId todayStart now) (s, [])
    let hasErrors := folded.2.any (fun r => decide (r.status = Verdict.error))
    some ({ folded.1 with
            batches := folded.1.batches ++
              [{ userId := userId, itemCount := itemsToProcess.length,
                 status := if hasErrors then "failed" else "completed" }] },
          folded.2)

/-- The ecoPoints of the user document with the given id (none absent). -/
def userPoints (s : ServerState) (userId : Nat) : Option Int :=
  (s.users.find? (fun u => decide (u.id = userId))).map (fun u => u.ecoPoints)

/-- The validatedPoints formula of processHabitLog: the claimed points,
clamped down to the remaining daily headroom when they would cross the cap. -/
def clampedPoints (s : ServerState) (userId : Nat) (item : SyncItem)
    (todayStart : Nat) : Int :=
  if DAILY_CAP_PER_CATEGORY <
      getTodayLogsForHabit s userId item.habitType todayStart + item.pointsAwarded then
    DAILY_CAP_PER_CATEGORY - getTodayLogsForHabit s userId item.habitType todayStart
  else item.pointsAwarded

/-- The ledger document the accept path of processHabitLog inserts. -/
def insertedLog (s : ServerState) (userId : Nat) (item : SyncItem)
    (todayStart : Nat) : LedgerLog :=
  { serverId := s.nextId, userId := userId, habitType := item.habitType,
    pointsAwarded := clampedPoints s userId item todayStart, clientId := item.id,
    loggedAt := item.loggedAt, validated := true }

/-! Ranking service: getClosestCompetitors (part_020). -/

/-- A row of a ranking view. -/
structure RankingEntry where
  userId : Nat
  displayName : String
  ecoPoints : Int
  rank : Nat
  isAnonymous : Bool
deriving DecidableEq, Repr

/-- Ascending ecoPoints order of the by_ecoPoints index. -/
def pointsAsc (a b : SUser) : Prop := a.ecoPoints ≤ b.ecoPoints

/-- Descending ecoPoints order of the by_ecoPoints index. -/
def pointsDesc (a b : SUser) : Prop := b.ecoPoints ≤ a.ecoPoints

instance : DecidableRel pointsAsc := fun a b =>
  inferInstanceAs (Decidable (a.ecoPoints ≤ b.ecoPoints))

instance : DecidableRel pointsDesc := fun a b =>
  inferInstanceAs (Decidable (b.ecoPoints ≤ a.ecoPoints))

instance : IsTotal SUser pointsAsc :=
  ⟨fun a b => le_total a.ecoPoints b.ecoPoints⟩

instance : IsTrans SUser pointsAsc :=
  ⟨fun _ _ _ h1 h2 => le_trans h1 h2⟩

instance : IsTotal SUser pointsDesc :=
  ⟨fun a b => (le_total b.ecoPoints a.ecoPoints).symm.symm⟩

instance : IsTrans SUser pointsDesc :=
  ⟨fun _ _ _ h1 h2 => le_trans h2 h1⟩

/-- The users table scanned through by_ecoPoints ascending. -/
def sortUsersAsc (l : List SUser) : List SUser := l.insertionSort pointsAsc

/-- The users table scanned through by_ecoPoints descending. -/
def sortUsersDesc (l : List SUser) : List SUser := l.insertionSort pointsDesc

/-- getClosestCompetitors (part_020): empty when the user is absent;
otherwise take ceil (count / 2) users with strictly more points in ascending
scan order (the closest above), floor (count / 2) users with strictly fewer
points in descending scan order (the closest below), merge, sort by points
descending, and decorate each with its 1-based rank in the full descending
scan and the anonymity placeholder. -/
def getClosestCompetitors (users : List SUser) (userId : Nat) (count : Nat) :
    List RankingEntry :=
  match users.find? (fun u => decide (u.id = userId)) with
  | none => []
  | some u =>
    let usersAbove :=
      ((sortUsersAsc users).filter (fun v => decide (u.ecoPoints < v.ecoPoints))).take
        ((count + 1) / 2)
    let usersBelow :=
      ((sortUsersDesc users).filter (fun v => decide (v.ecoPoints < u.ecoPoints))).take
        (count / 2)
    let competitors := sortUsersDesc (usersAbove ++ usersBelow)
    let allUsers := sortUsersDesc users
    competitors.map (fun c =>
      { userId := c.id,
        displayName := if c.isAnonymous then "Anonymous" else c.displayName,
        ecoPoints := c.ecoPoints,
        rank := (allUsers.findIdx (fun v => decide (v.id = c.id))) + 1,
        isAnonymous := c.isAnonymous })

/-! Derived counting views used by the queue-invariant statements. -/

/-- Number of queue rows with status pending. -/
def pendingCount (s : LocalState) : Nat :=
  (s.queue.filter (fun e => decide (e.status = Status.pending))).length

/-- Number of rows of a queue that are not synced (pending or failed). -/
def countNotSynced (q : List QueueEntry) : Nat :=
  (q.filter (fun e => decide (e.status ≠ Status.synced))).length

/-- Number of queue rows that are not synced (pending or failed). -/
def unsyncedEntriesCount (s : LocalState) : Nat :=
  countNotSynced s.queue

/-- The state a successful undo leaves behind (the prior state if it threw). -/
def undoResult (s : LocalState) (logId : Nat) : LocalState :=
  ((undoLastLog s logId).toOption).getD s

/-- The per-item results of a syncBatch call (empty if it threw). -/
def syncBatchResults (s : ServerState) (userId : Nat) (items : List SyncItem)
    (todayStart now : Nat) : List SyncItemResult :=
  ((syncBatch s userId items todayStart now).map (fun p => p.2)).getD []

/-- The server state a syncBatch call leaves behind (the prior state if it
threw). -/
def syncBatchState (s : ServerState) (userId : Nat) (items : List SyncItem)
    (todayStart now : Nat) : ServerState :=
  ((syncBatch s userId items todayStart now).map (fun p => p.1)).getD s

/-! Local queue operations, as the claims enumerate them: record a habit,
mark an entry synced, mark an entry failed, resolve a conflict either way,
undo an entry. -/

/-- One local operation on the queue and aggregate state. -/
inductive LocalOp
  | record (id : Nat) (habitType : String) (points now : Nat)
  | markSynced (id : Nat) (serverId : Option Nat) (now : Nat)
  | markFailed (id : Nat) (msg : String) (now : Nat)
  | resolveConflict (id : Nat) (res : Resolution) (now : Nat)
  | undo (id : Nat)
deriving DecidableEq, Repr

/-- State effect of one local operation, mapped onto the source functions;
the fallible operations leave the state unchanged when they throw. -/
def applyOp (s : LocalState) (op : LocalOp) : LocalState :=
  match op with
  | .record id habitType points now => logHabit s id habitType points now
  | .markSynced id serverId now => updateHabitLogStatus s id .synced serverId none now
  | .markFailed id msg now => updateHabitLogStatus s id .failed none (some msg) now
  | .resolveConflict id res now => ((handleConflict s id res now).toOption).getD s
  | .undo id => ((undoLastLog s id).toOption).getD s

/-- Preconditions under which the source performs each operation: record
uses a fresh client UUID (the queue id column is the primary key); a sync
verdict is applied to a selected entry that is not yet synced; conflict
resolution is applied to an entry that is not yet synced; undo targets a
pending entry (as specified) or a missing one (then it throws). -/
def opPre (s : LocalState) (op : LocalOp) : Prop :=
  match op with
  | .record id _ _ _ => ∀ e ∈ s.queue, e.id ≠ id
  | .markSynced id _ _ => ∃ e ∈ s.queue, e.id = id ∧ e.status ≠ Status.synced
  | .markFailed id _ _ => ∃ e ∈ s.queue, e.id = id ∧ e.status ≠ Status.synced
  | .resolveConflict id _ _ => ∃ e ∈ s.queue, e.id = id ∧ e.status ≠ Status.synced
  | .undo id => ∀ e ∈ s.queue, e.id = id → e.status = Status.pending

/-- The counter invariant the local store actually maintains: queue ids are
unique (id is the primary key) and user_stats.unsynced_count equals the
number of not-yet-synced entries, pending and failed together. -/
def QueueInv (s : LocalState) : Prop :=
  List.Pairwise (fun a b => a.id ≠ b.id) s.queue ∧
  s.unsynced_count = unsyncedEntriesCount s

/-! Concrete inputs used by the counterexample and bug-evaluation
theorems. -/

/-- The freshly initialized local database (constructed INSERT of
initializeUserStats: zero totals, empty queue). -/
def emptyLocal : LocalState :=
  { queue := [], total_eco_points := 0, unsynced_count := 0, last_sync_at := none }

/-- A sync service state past any cooldown and with a configured client. -/
def svcReady : SyncSvc := { lastSyncTimestamp := 0, configured := true }

/-- A transport that fails with the fetch error an offline device produces:
no per-item response is obtained. -/
def offlineTransport : List SyncItem → Except String (List SyncItemResult) :=
  fun _ => .error "Network request failed"

/-- A transport that accepts every submitted item. -/
def acceptAllTransport : List SyncItem → Except String (List SyncItemResult) :=
  fun items => .ok (items.map (fun it =>
    { id := it.id, status := .accepted, serverId := some 99,
      message := none, serverData := none }))

/-- A queue holding one pending entry (id 1, recycle, 10 points). -/
def stateOnePending : LocalState :=
  { queue := [{ id := 1, habitType := "recycle", points := 10, loggedAt := 1000,
                createdAt := 1000, status := .pending, syncedAt := none,
                serverId := none, attempts := 0, errorMessage := none }],
    total_eco_points := 10, unsynced_count := 1, last_sync_at := none }

/-- A queue holding one pending entry (id 2, bike, 8 points). -/
def stateOnePendingBike : LocalState :=
  { queue := [{ id := 2, habitType := "bike", points := 8, loggedAt := 2000,
                createdAt := 2000, status := .pending, syncedAt := none,
                serverId := none, attempts := 0, errorMessage := none }],
    total_eco_points := 8, unsynced_count := 1, last_sync_at := none }

/-- A queue holding one pending entry (id 3, water, 15 points). -/
def stateOnePendingWater : LocalState :=
  { queue := [{ id := 3, habitType := "water", points := 15, loggedAt := 3000,
                createdAt := 3000, status := .pending, syncedAt := none,
                serverId := none, attempts := 0, errorMessage := none }],
    total_eco_points := 15, unsynced_count := 1, last_sync_at := none }

/-- A queue holding one already synced entry (id 5, bike, 12 points). -/
def stateOneSynced : LocalState :=
  { queue := [{ id := 5, habitType := "bike", points := 12, loggedAt := 500,
                createdAt := 500, status := .synced, syncedAt := some 600,
                serverId := some 9, attempts := 1, errorMessage := none }],
    total_eco_points := 40, unsynced_count := 0, last_sync_at := some 600 }

/-- Four users with distinct point totals for the ranking counterexample. -/
def demoUsers : List SUser :=
  [{ id := 1, displayName := "A", ecoPoints := 40, isAnonymous := false, lastActive := 0 },
   { id := 2, displayName := "B", ecoPoints := 30, isAnonymous := false, lastActive := 0 },
   { id := 3, displayName := "C", ecoPoints := 20, isAnonymous := false, lastActive := 0 },
   { id := 4, displayName := "D", ecoPoints := 10, isAnonymous := false, lastActive := 0 }]

/-- A server with one user (id 7, 100 points) and an empty ledger. -/
def srvOneUser : ServerState :=
  { logs := [],
    users := [{ id := 7, displayName := "U", ecoPoints := 100,
                isAnonymous := false, lastActive := 0 }],
    batches := [], nextId := 0 }

/-- A fresh valid wire item (id 11, recycle, 10 points, logged today). -/
def itemRecycle10 : SyncItem :=
  { id := 11, habitType := "recycle", pointsAwarded := 10, loggedAt := 5000,
    createdAt := 5000 }

/-- A valid wire item claiming 20 points (id 12, recycle, logged today). -/
def itemRecycle20 : SyncItem :=
  { id := 12, habitType := "recycle", pointsAwarded := 20, loggedAt := 5100,
    createdAt := 5100 }

/-- A server whose one user already has 40 accepted recycle points today. -/
def srvNearCap : ServerState :=
  { logs := [{ serverId := 0, userId := 7, habitType := "recycle", pointsAwarded := 40,
               clientId := 90, loggedAt := 4000, validated := true }],
    users := [{ id := 7, displayName := "U", ecoPoints := 140,
                isAnonymous := false, lastActive := 0 }],
    batches := [], nextId := 1 }

/-- A server whose one user already has 50 accepted recycle points today. -/
def srvAtCap : ServerState :=
  { logs := [{ serverId := 0, userId := 7, habitType := "recycle", pointsAwarded := 50,
               clientId := 91, loggedAt := 4000, validated := true }],
    users := [{ id := 7, displayName := "U", ecoPoints := 150,
                isAnonymous := false, lastActive := 0 }],
    batches := [], nextId := 1 }

end EcoNest

namespace EcoNest

/-! Helper lemmas shared by the claim theorems. -/

/-- find? skips a prefix in which it finds nothing. -/
theorem find?_append_of_none {α : Type} (p : α → Bool) {l₁ : List α} (l₂ : List α)
    (h : l₁.find? p = none) : (l₁ ++ l₂).find? p = l₂.find? p := by
  induction l₁ with
  | nil => rfl
  | cons a l ih =>
    rw [List.find?_cons] at h
    cases hpa : p a with
    | true => rw [hpa] at h; cases h
    | false =>
      rw [hpa] at h
      rw [List.cons_append, List.find?_cons, hpa]
      exact ih h

/-- A conditional row rewrite is the identity on a list no row of which
matches. -/
theorem map_ite_noop {α : Type} (p : α → Prop) [DecidablePred p] (f : α → α)
    {l : List α} (h : ∀ a ∈ l, ¬ p a) :
    l.map (fun a => if p a then f a else a) = l := by
  induction l with
  | nil => rfl
  | cons a l ih =>
    rw [List.map_cons, if_neg (h a (List.mem_cons_self a l)),
      ih (fun b hb => h b (List.mem_cons_of_mem a hb))]

/-- Two rows of a duplicate-free queue with the same id are the same row. -/
theorem eq_of_mem_of_pairwise_ids {q : List QueueEntry}
    (hp : List.Pairwise (fun a b => a.id ≠ b.id) q)
    {e₁ e₂ : QueueEntry} (h₁ : e₁ ∈ q) (h₂ : e₂ ∈ q) (hid : e₁.id = e₂.id) :
    e₁ = e₂ := by
  induction q with
  | nil => cases h₁
  | cons a q ih =>
    have ha := List.pairwise_cons.mp hp
    rcases List.mem_cons.mp h₁ with rfl | h₁'
    · rcases List.mem_cons.mp h₂ with rfl | h₂'
      · rfl
      · exact absurd hid (ha.1 e₂ h₂')
    · rcases List.mem_cons.mp h₂ with rfl | h₂'
      · exact absurd hid.symm (ha.1 e₁ h₁')
      · exact ih ha.2 h₁' h₂'

/-! C7: streak transitions of updateStreak. -/

/-- Claim C7: for every category, the streak update performed when logging
obeys: when the last qualifying date is yesterday the streak increments by
exactly 1; when it is today the streak is unchanged; when there is no
record, or the last qualifying date is earlier than yesterday, the streak is
set to 1, never 0. -/
theorem C7_streak_update :
    (∀ today, (updateStreak none today).current_streak = 1) ∧
    (∀ d today, d.last_logged_date = today →
      (updateStreak (some d) today).current_streak = d.current_streak) ∧
    (∀ d today, d.last_logged_date + 1 = today →
      (updateStreak (some d) today).current_streak = d.current_streak + 1) ∧
    (∀ d today, d.last_logged_date + 1 < today →
      (updateStreak (some d) today).current_streak = 1) := by
  refine ⟨fun today => rfl, ?_, ?_, ?_⟩
  · intro d today h
    simp [updateStreak, h]
  · intro d today h
    have h1 : d.last_logged_date ≠ today := by omega
    simp [updateStreak, h1, h]
  · intro d today h
    have h1 : d.last_logged_date ≠ today := by omega
    have h2 : d.last_logged_date + 1 ≠ today := by omega
    simp [updateStreak, h1, h2]

/-- Witness for C7 at concrete streak records around day 5. -/
theorem C7_streak_update_witness :
    (updateStreak none 5).current_streak = 1 ∧
    (updateStreak (some { current_streak := 3, last_logged_date := 5 }) 5).current_streak = 3 ∧
    (updateStreak (some { current_streak := 3, last_logged_date := 4 }) 5).current_streak = 4 ∧
    (updateStreak (some { current_streak := 3, last_logged_date := 2 }) 5).current_streak = 1 :=
  ⟨C7_streak_update.1 5,
   C7_streak_update.2.1 { current_streak := 3, last_logged_date := 5 } 5 rfl,
   C7_streak_update.2.2.1 { current_streak := 3, last_logged_date := 4 } 5 rfl,
   C7_streak_update.2.2.2 { current_streak := 3, last_logged_date := 2 } 5 (by decide)⟩

end EcoNest

namespace EcoNest

/-! C1: behaviour of syncPendingItems when the batch request itself fails. -/

/-- Claim C1 (bug evaluation): on a transport failure with one selected
pending entry, syncPendingItems throws the aggregate error but marks the
selected entry failed with the transport message, so the queue does not
remain pending and is not identical to its prior state. -/
theorem C1_transport_failure_marks_entries_failed :
    (syncPendingItems svcReady stateOnePending 10000 offlineTransport).outcome =
      .error (.aggregate "No connection — saved locally") ∧
    ((syncPendingItems svcReady stateOnePending 10000 offlineTransport).state.queue.map
      (fun e => (e.status, e.errorMessage))) =
      [(Status.failed, some "Network request failed")] ∧
    pendingCount (syncPendingItems svcReady stateOnePending 10000 offlineTransport).state = 0 ∧
    (syncPendingItems svcReady stateOnePending 10000 offlineTransport).state ≠
      stateOnePending := by decide

/-! C6: behaviour of syncPendingItems while the device is offline.  The
engine has no connectivity guard; being offline manifests as the transport
failing, after the queue has already been read. -/

/-- Claim C6 (bug evaluation): while offline, syncPendingItems does not fail
with a distinguishable offline error before contacting the server; it
attempts the request, marks the selected pending entry failed, and throws
the generic aggregate message, so queue mutations do occur. -/
theorem C6_offline_sync_mutates_queue :
    (syncPendingItems svcReady stateOnePendingWater 20000 offlineTransport).outcome =
      .error (.aggregate "No connection — saved locally") ∧
    pendingCount stateOnePendingWater = 1 ∧
    pendingCount (syncPendingItems svcReady stateOnePendingWater 20000 offlineTransport).state
      = 0 ∧
    ((syncPendingItems svcReady stateOnePendingWater 20000 offlineTransport).state.queue.map
      (fun e => e.status)) = [Status.failed] := by decide

/-! C5: the cooldown. -/

/-- Claim C5 counterexample: a completed failed attempt at time 10000 does
not arm the cooldown, so a second call 2 seconds later is not rejected with
a cooldown error; it completes normally (here with an empty success, the
first attempt having marked the entry failed). -/
theorem C5_counterexample :
    (syncPendingItems svcReady stateOnePendingBike 10000 offlineTransport).outcome =
      .error (.aggregate "No connection — saved locally") ∧
    (syncPendingItems (syncPendingItems svcReady stateOnePendingBike 10000 offlineTransport).svc
      (syncPendingItems svcReady stateOnePendingBike 10000 offlineTransport).state
      12000 acceptAllTransport).outcome =
      .ok { uploaded := 0, conflicts := [], errors := [] } := by decide

/-- Claim C5 as amended: the 5-second cooldown is armed only by an attempt
that obtains a batch response (a successful attempt with a nonempty
selection); within 5000 ms of the armed timestamp every call fails with the
cooldown error carrying the remaining wait in seconds, touching neither the
queue nor the transport; a failed attempt leaves the service state, and
hence the cooldown, unchanged. -/
theorem C5_cooldown_only_after_success :
    (∀ svc s now tr, now - svc.lastSyncTimestamp < SYNC_COOLDOWN_MS →
      syncPendingItems svc s now tr =
        { svc := svc, state := s,
          outcome := .error (.cooldown
            (ceilDiv (SYNC_COOLDOWN_MS - (now - svc.lastSyncTimestamp)) 1000)) }) ∧
    (∀ svc s now tr results, ¬ now - svc.lastSyncTimestamp < SYNC_COOLDOWN_MS →
      svc.configured = true → getPendingHabitLogs s 50 ≠ [] →
      tr ((getPendingHabitLogs s 50).map toSyncItem) = .ok results →
      (syncPendingItems svc s now tr).svc.lastSyncTimestamp = now) ∧
    (∀ svc s now tr msg, ¬ now - svc.lastSyncTimestamp < SYNC_COOLDOWN_MS →
      svc.configured = true → getPendingHabitLogs s 50 ≠ [] →
      tr ((getPendingHabitLogs s 50).map toSyncItem) = .error msg →
      (syncPendingItems svc s now tr).svc = svc) := by
  refine ⟨?_, ?_, ?_⟩
  · intro svc s now tr h
    simp only [syncPendingItems, if_pos h]
  · intro svc s now tr results h hc hne htr
    obtain ⟨a, as, hpl⟩ := List.exists_cons_of_ne_nil hne
    rw [hpl] at htr
    simp only [syncPendingItems, if_neg h, hc, Bool.not_true, Bool.false_eq_true,
      if_false, hpl, List.isEmpty_cons, htr]
  · intro svc s now tr msg h hc hne htr
    obtain ⟨a, as, hpl⟩ := List.exists_cons_of_ne_nil hne
    rw [hpl] at htr
    simp only [syncPendingItems, if_neg h, hc, Bool.not_true, Bool.false_eq_true,
      if_false, hpl, List.isEmpty_cons, htr]

/-- Witness for C5 as amended: a call 2 seconds after an armed cooldown is
rejected with 3 seconds remaining; a successful nonempty attempt arms the
cooldown at its start time; a failed attempt leaves the service state
untouched. -/
theorem C5_cooldown_only_after_success_witness :
    (syncPendingItems { lastSyncTimestamp := 10000, configured := true } emptyLocal 12000
        acceptAllTransport =
      { svc := { lastSyncTimestamp := 10000, configured := true }, state := emptyLocal,
        outcome := .error (.cooldown 3) }) ∧
    ((syncPendingItems svcReady stateOnePending 10000 acceptAllTransport).svc.lastSyncTimestamp
      = 10000) ∧
    ((syncPendingItems svcReady stateOnePendingBike 10000 offlineTransport).svc = svcReady) :=
  ⟨C5_cooldown_only_after_success.1 { lastSyncTimestamp := 10000, configured := true }
      emptyLocal 12000 acceptAllTransport (by decide),
   C5_cooldown_only_after_success.2.1 svcReady stateOnePending 10000 acceptAllTransport
      [{ id := 1, status := .accepted, serverId := some 99, message := none,
         serverData := none }]
      (by decide) (by decide) (by decide) (by decide),
   C5_cooldown_only_after_success.2.2 svcReady stateOnePendingBike 10000 offlineTransport
      "Network request failed" (by decide) (by decide) (by decide) (by decide)⟩

/-! C2: the pending-counter identity. -/

/-- Claim C2 counterexample: from the initialized store, record one habit
and mark its entry failed; the stored counter stays 1 while the number of
pending entries is 0, so the claimed equality with the pending count is not
preserved by marking an entry failed. -/
theorem C2_counterexample :
    (updateHabitLogStatus (logHabit emptyLocal 1 "recycle" 10 100)
       1 .failed none (some "Server error") 200).unsynced_count = 1 ∧
    pendingCount (updateHabitLogStatus (logHabit emptyLocal 1 "recycle" 10 100)
       1 .failed none (some "Server error") 200) = 0 := by decide

/-! C8: undo. -/

/-- Claim C8 counterexample: undoLastLog succeeds on an entry whose status is
synced, deleting it and subtracting its points, so undo does not succeed only
on pending entries. -/
theorem C8_counterexample :
    (stateOneSynced.queue.map (fun e => e.status)) = [Status.synced] ∧
    undoLastLog stateOneSynced 5 =
      .ok { queue := [], total_eco_points := 28, unsynced_count := 0,
            last_sync_at := some 600 } := by decide

/-! C9: closest competitors. -/

/-- Claim C9 counterexample: four users with points 40, 30, 20, 10 and the
last-placed user asking for 3 competitors: only the two immediately above
exist below the ceil share and nothing is backfilled, so 2 entries are
returned although 3 other users exist. -/
theorem C9_counterexample :
    demoUsers.length = 4 ∧ (getClosestCompetitors demoUsers 4 3).length = 2 := by decide

end EcoNest

namespace EcoNest

/-- Claim C8 as amended: undo throws Log not found exactly when the entry is
absent; on any existing entry, of whatever status, it succeeds, removes the
entry (keeping all others), decrements the running total by the entry's
recorded points (floored at zero by the source's max), and decrements the
stored pending counter by one exactly when the entry was pending. -/
theorem C8_undo_behavior :
    (∀ s logId, s.queue.find? (fun e => decide (e.id = logId)) = none →
      undoLastLog s logId = .error "Log not found") ∧
    (∀ s logId e, s.queue.find? (fun x => decide (x.id = logId)) = some e →
      undoLastLog s logId = .ok (undoResult s logId) ∧
      (∀ x ∈ (undoResult s logId).queue, x.id ≠ logId) ∧
      (∀ x ∈ s.queue, x.id ≠ logId → x ∈ (undoResult s logId).queue) ∧
      (undoResult s logId).total_eco_points = s.total_eco_points - e.points ∧
      (undoResult s logId).unsynced_count =
        (if e.status = Status.pending then s.unsynced_count - 1 else s.unsynced_count)) := by
  constructor
  · intro s logId h
    simp only [undoLastLog, h]
  · intro s logId e he
    have hval : undoLastLog s logId =
        .ok { deleteHabitLog s logId with
              total_eco_points := (deleteHabitLog s logId).total_eco_points - e.points } := by
      simp only [undoLastLog, he]
    have hres : undoResult s logId =
        { deleteHabitLog s logId with
          total_eco_points := (deleteHabitLog s logId).total_eco_points - e.points } := by
      simp only [undoResult, hval, Except.toOption, Option.getD_some]
    have hq : (undoResult s logId).queue =
        s.queue.filter (fun x => decide (x.id ≠ logId)) := by
      rw [hres]
      rfl
    refine ⟨by rw [hval, hres], ?_, ?_, ?_, ?_⟩
    · intro x hx
      rw [hq] at hx
      exact of_decide_eq_true (List.mem_filter.mp hx).2
    · intro x hx hne
      rw [hq]
      exact List.mem_filter.mpr ⟨hx, decide_eq_true hne⟩
    · rw [hres]
      rfl
    · rw [hres]
      show (deleteHabitLog s logId).unsynced_count = _
      by_cases hp : e.status = Status.pending
      · simp [deleteHabitLog, he, hp]
      · simp [deleteHabitLog, he, hp]

/-- Witness for C8 as amended: a missing id throws, and undoing the single
pending 10-point entry empties the counter. -/
theorem C8_undo_behavior_witness :
    undoLastLog emptyLocal 42 = .error "Log not found" ∧
    undoLastLog stateOnePending 1 = .ok (undoResult stateOnePending 1) ∧
    (undoResult stateOnePending 1).unsynced_count = 0 := by
  have h1 := C8_undo_behavior.1 emptyLocal 42 (by decide)
  have h2 := C8_undo_behavior.2 stateOnePending 1
      { id := 1, habitType := "recycle", points := 10, loggedAt := 1000, createdAt := 1000,
        status := .pending, syncedAt := none, serverId := none, attempts := 0,
        errorMessage := none } (by decide)
  exact ⟨h1, h2.1, by rw [h2.2.2.2.2]; decide⟩

/-- Claim C9 as amended: for a present user, getClosestCompetitors returns
the users immediately above (at most ceil (count / 2) of them) and
immediately below (at most floor (count / 2)) by points, sorted by points
descending; when one side has fewer users than its share nothing is
backfilled from the other side, so the result length is the sum of the two
clipped shares and can fall short of count even when enough users exist
overall. -/
theorem C9_closest_competitors (users : List SUser) (userId count : Nat) (u : SUser)
    (hu : users.find? (fun v => decide (v.id = userId)) = some u) :
    (getClosestCompetitors users userId count).length =
      min ((count + 1) / 2)
        ((users.filter (fun v => decide (u.ecoPoints < v.ecoPoints))).length) +
      min (count / 2)
        ((users.filter (fun v => decide (v.ecoPoints < u.ecoPoints))).length) ∧
    List.Pairwise (fun a b => b.ecoPoints ≤ a.ecoPoints)
      (getClosestCompetitors users userId count) := by
  constructor
  · simp only [getClosestCompetitors, hu, List.length_map, sortUsersDesc, sortUsersAsc]
    rw [(List.perm_insertionSort pointsDesc _).length_eq, List.length_append,
      List.length_take, List.length_take,
      ((List.perm_insertionSort pointsAsc users).filter
        (fun v => decide (u.ecoPoints < v.ecoPoints))).length_eq,
      ((List.perm_insertionSort pointsDesc users).filter
        (fun v => decide (v.ecoPoints < u.ecoPoints))).length_eq]
  · simp only [getClosestCompetitors, hu]
    refine List.pairwise_map.mpr ?_
    have hs := List.sorted_insertionSort pointsDesc
      (((sortUsersAsc users).filter (fun v => decide (u.ecoPoints < v.ecoPoints))).take
          ((count + 1) / 2) ++
        ((sortUsersDesc users).filter (fun v => decide (v.ecoPoints < u.ecoPoints))).take
          (count / 2))
    exact hs.imp (fun h => h)

/-- Witness for C9 as amended at the four demo users around user 2: one user
above is taken against a ceil share of 2, one below against a floor share of
1, and the two returned entries are in descending point order. -/
theorem C9_closest_competitors_witness :
    (getClosestCompetitors demoUsers 2 3).length =
      min 2 ((demoUsers.filter (fun v => decide ((30 : Int) < v.ecoPoints))).length) +
      min 1 ((demoUsers.filter (fun v => decide (v.ecoPoints < (30 : Int)))).length) ∧
    List.Pairwise (fun a b => b.ecoPoints ≤ a.ecoPoints)
      (getClosestCompetitors demoUsers 2 3) :=
  C9_closest_competitors demoUsers 2 3
    { id := 2, displayName := "B", ecoPoints := 30, isAnonymous := false, lastActive := 0 }
    (by decide)

end EcoNest

namespace EcoNest

/-- processHabitLog always answers under the id of the item it was given. -/
theorem processHabitLog_result_id (s : ServerState) (userId : Nat) (item : SyncItem)
    (ts now : Nat) : (processHabitLog s userId item ts now).2.id = item.id := by
  simp only [processHabitLog]
  repeat' split
  all_goals rfl

/-- processHabitLog either leaves the state unchanged or appends exactly one
ledger document, which carries the submitted item's id as its clientId. -/
theorem processHabitLog_state_shape (s : ServerState) (userId : Nat) (item : SyncItem)
    (ts now : Nat) :
    (processHabitLog s userId item ts now).1 = s ∨
    ∃ v, (processHabitLog s userId item ts now).1.logs =
      s.logs ++ [{ serverId := s.nextId, userId := userId, habitType := item.habitType,
                   pointsAwarded := v, clientId := item.id, loggedAt := item.loggedAt,
                   validated := true }] := by
  simp only [processHabitLog]
  repeat' split
  all_goals first
    | exact Or.inl rfl
    | exact Or.inr ⟨_, rfl⟩

/-- processHabitLog adds no ledger document beyond, at most, one carrying the
submitted item's id as its clientId. -/
theorem processHabitLog_logs_subset (s : ServerState) (userId : Nat) (item : SyncItem)
    (ts now : Nat) :
    ∀ l ∈ (processHabitLog s userId item ts now).1.logs,
      l ∈ s.logs ∨ l.clientId = item.id := by
  intro l hl
  rcases processHabitLog_state_shape s userId item ts now with h | ⟨v, h⟩
  · rw [h] at hl
    exact Or.inl hl
  · rw [h] at hl
    rcases List.mem_append.mp hl with h' | h'
    · exact Or.inl h'
    · rw [List.mem_singleton.mp h']
      exact Or.inr rfl

/-- The syncBatch item loop emits exactly one result per processed item, in
order and under the item's id, and only adds ledger documents whose clientId
is one of the processed ids. -/
theorem syncFold_ids_and_logs (userId ts now : Nat) :
    ∀ (its : List SyncItem) (st : ServerState) (acc : List SyncItemResult),
      ((its.foldl (syncFoldStep userId ts now) (st, acc)).2.map (fun r => r.id) =
        acc.map (fun r => r.id) ++ its.map (fun i => i.id)) ∧
      (∀ l ∈ (its.foldl (syncFoldStep userId ts now) (st, acc)).1.logs,
        l ∈ st.logs ∨ l.clientId ∈ its.map (fun i => i.id)) := by
  intro its
  induction its with
  | nil =>
    intro st acc
    exact ⟨by simp, fun l hl => Or.inl hl⟩
  | cons a its ih =>
    intro st acc
    simp only [List.foldl_cons, syncFoldStep, List.map_cons]
    obtain ⟨ih1, ih2⟩ := ih (processHabitLog st userId a ts now).1
      (acc ++ [(processHabitLog st userId a ts now).2])
    constructor
    · rw [ih1, List.map_append, List.append_assoc]
      simp [processHabitLog_result_id]
    · intro l hl
      rcases ih2 l hl with h | h
      · rcases processHabitLog_logs_subset st userId a ts now l h with h' | h'
        · exact Or.inl h'
        · exact Or.inr (by simp [h'])
      · exact Or.inr (List.mem_cons_of_mem _ h)

/-- Claim C10: with an existing user, syncBatch succeeds whatever the batch
size, processes only the first 50 items, returns exactly one verdict per
processed item (matched by id, in order, none for the overflow), inserts no
ledger document for items beyond the first 50, and reports no error for the
omitted items (the overflow simply has no verdict in the returned list). -/
theorem C10_batch_limit (s : ServerState) (userId : Nat) (u : SUser)
    (hu : s.users.find? (fun v => decide (v.id = userId)) = some u)
    (items : List SyncItem) (ts now : Nat) :
    (syncBatch s userId items ts now).isSome = true ∧
    (syncBatchResults s userId items ts now).map (fun r => r.id) =
      (items.take 50).map (fun i => i.id) ∧
    (syncBatchResults s userId items ts now).length = min 50 items.length ∧
    (∀ l ∈ (syncBatchState s userId items ts now).logs,
      l ∈ s.logs ∨ l.clientId ∈ (items.take 50).map (fun i => i.id)) := by
  have hfold := syncFold_ids_and_logs userId ts now (items.take 50) s []
  have hb : syncBatch s userId items ts now =
      some ({ ((items.take 50).foldl (syncFoldStep userId ts now) (s, [])).1 with
              batches :=
                ((items.take 50).foldl (syncFoldStep userId ts now) (s, [])).1.batches ++
                [{ userId := userId, itemCount := (items.take 50).length,
                   status :=
                     if ((items.take 50).foldl (syncFoldStep userId ts now) (s, [])).2.any
                          (fun r => decide (r.status = Verdict.error))
                     then "failed" else "completed" }] },
            ((items.take 50).foldl (syncFoldStep userId ts now) (s, [])).2) := by
    simp only [syncBatch, hu]
  have hres : syncBatchResults s userId items ts now =
      ((items.take 50).foldl (syncFoldStep userId ts now) (s, [])).2 := by
    rw [syncBatchResults, hb]
    rfl
  have hids : (syncBatchResults s userId items ts now).map (fun r => r.id) =
      (items.take 50).map (fun i => i.id) := by
    rw [hres]
    simpa using hfold.1
  refine ⟨by rw [hb]; rfl, hids, ?_, ?_⟩
  · have := congrArg List.length hids
    rw [List.length_map, List.length_map, List.length_take] at this
    exact this
  · intro l hl
    have hst : (syncBatchState s userId items ts now).logs =
        ((items.take 50).foldl (syncFoldStep userId ts now) (s, [])).1.logs := by
      rw [syncBatchState, hb]
      rfl
    rw [hst] at hl
    exact hfold.2 l hl

/-- Witness for C10 at a two-item batch against the one-user server. -/
theorem C10_batch_limit_witness :
    (syncBatch srvOneUser 7 [itemRecycle10, itemRecycle20] 0 9000).isSome = true ∧
    (syncBatchResults srvOneUser 7 [itemRecycle10, itemRecycle20] 0 9000).map
      (fun r => r.id) = ([itemRecycle10, itemRecycle20].take 50).map (fun i => i.id) ∧
    (syncBatchResults srvOneUser 7 [itemRecycle10, itemRecycle20] 0 9000).length =
      min 50 [itemRecycle10, itemRecycle20].length := by
  have h := C10_batch_limit srvOneUser 7
      { id := 7, displayName := "U", ecoPoints := 100, isAnonymous := false, lastActive := 0 }
      (by decide) [itemRecycle10, itemRecycle20] 0 9000
  exact ⟨h.1, h.2.1, h.2.2.1⟩

end EcoNest

namespace EcoNest

/-- find? commutes with a map that does not change the predicate's verdict. -/
theorem find?_map_of_pred_invariant {α : Type} (p : α → Bool) (f : α → α)
    (hf : ∀ a, p (f a) = p a) (l : List α) :
    (l.map f).find? p = (l.find? p).map f := by
  induction l with
  | nil => rfl
  | cons a l ih =>
    rw [List.map_cons, List.find?_cons, List.find?_cons, hf a]
    cases hpa : p a with
    | false => exact ih
    | true => rfl

/-- The accept path of processHabitLog, reduced: on a fresh, whitelisted,
in-range item under the cap, the call inserts the validated log, bumps
nextId, and patches the owning user. -/
theorem processHabitLog_accepts (s : ServerState) (userId : Nat) (item : SyncItem)
    (todayStart now : Nat)
    (hfresh : findByClientId s.logs item.id = none)
    (htype : item.habitType ∈ VALID_HABIT_TYPES)
    (hlo : BASE_POINTS_MIN ≤ item.pointsAwarded)
    (hhi : item.pointsAwarded ≤ BASE_POINTS_MAX + STREAK_BONUS_14_DAYS)
    (hcap : getTodayLogsForHabit s userId item.habitType todayStart <
      DAILY_CAP_PER_CATEGORY) :
    processHabitLog s userId item todayStart now =
      ({ s with
         logs := s.logs ++ [insertedLog s userId item todayStart],
         nextId := s.nextId + 1,
         users := s.users.map (fun v =>
           if v.id = userId then
             { v with
                 ecoPoints := v.ecoPoints + clampedPoints s userId item todayStart,
                 lastActive := now }
           else v) },
       { id := item.id, status := Verdict.accepted, serverId := some s.nextId,
         message := none, serverData := none }) := by
  have h1 : ¬ item.habitType ∉ VALID_HABIT_TYPES := fun hc => hc htype
  have hrange : ¬ (item.pointsAwarded < BASE_POINTS_MIN ∨
      BASE_POINTS_MAX + STREAK_BONUS_14_DAYS < item.pointsAwarded) := by
    push_neg
    exact ⟨hlo, hhi⟩
  have hcap2 : ¬ (DAILY_CAP_PER_CATEGORY ≤
      getTodayLogsForHabit s userId item.habitType todayStart) := not_le.mpr hcap
  simp only [processHabitLog, hfresh, if_neg h1, if_neg hrange, if_neg hcap2]
  rfl

/-- Claim C3: a valid first submission (fresh id, whitelisted category,
points within the possible range, cap headroom left) is accepted and adds
its clamped points to the owning user's running total; every later
submission of the same item yields conflict carrying the stored server
values as serverData and leaves the server state, hence the total, exactly
fixed, so the total advances exactly once however often the item is
re-sent. -/
theorem C3_idempotent_resubmission (s : ServerState) (userId : Nat) (item : SyncItem)
    (u : SUser) (todayStart now : Nat)
    (hfresh : findByClientId s.logs item.id = none)
    (htype : item.habitType ∈ VALID_HABIT_TYPES)
    (hlo : BASE_POINTS_MIN ≤ item.pointsAwarded)
    (hhi : item.pointsAwarded ≤ BASE_POINTS_MAX + STREAK_BONUS_14_DAYS)
    (hcap : getTodayLogsForHabit s userId item.habitType todayStart <
      DAILY_CAP_PER_CATEGORY)
    (hu : s.users.find? (fun v => decide (v.id = userId)) = some u) :
    (processHabitLog s userId item todayStart now).2.status = Verdict.accepted ∧
    userPoints (processHabitLog s userId item todayStart now).1 userId =
      some (u.ecoPoints + clampedPoints s userId item todayStart) ∧
    (∀ now2, processHabitLog (processHabitLog s userId item todayStart now).1 userId item
        todayStart now2 =
      ((processHabitLog s userId item todayStart now).1,
       { id := item.id, status := Verdict.conflict, serverId := some s.nextId,
         message := some "Log already exists on server",
         serverData := some { habitType := item.habitType,
                              pointsAwarded := clampedPoints s userId item todayStart,
                              loggedAt := item.loggedAt } })) := by
  have hstep := processHabitLog_accepts s userId item todayStart now hfresh htype hlo hhi hcap
  have hpu := List.find?_some hu
  have huid : u.id = userId := by simpa using hpu
  refine ⟨by rw [hstep], ?_, ?_⟩
  · rw [hstep]
    show ((s.users.map (fun v =>
        if v.id = userId then
          { v with
              ecoPoints := v.ecoPoints + clampedPoints s userId item todayStart,
              lastActive := now }
        else v)).find? (fun v => decide (v.id = userId))).map (fun v => v.ecoPoints) = _
    rw [find?_map_of_pred_invariant _ _ ?hinv, hu]
    case hinv =>
      intro a
      by_cases ha : a.id = userId
      · simp [ha]
      · simp [ha]
    rw [Option.map_map]
    simp [huid]
  · intro now2
    have h1 : ¬ item.habitType ∉ VALID_HABIT_TYPES := fun hc => hc htype
    have hfind2 : findByClientId (processHabitLog s userId item todayStart now).1.logs
        item.id = some (insertedLog s userId item todayStart) := by
      rw [hstep]
      show (s.logs ++ [insertedLog s userId item todayStart]).find?
        (fun l => decide (l.clientId = item.id)) = _
      rw [find?_append_of_none _ _ hfresh]
      simp [insertedLog]
    conv_lhs => rw [processHabitLog]
    rw [if_neg h1, hfind2]
    rfl

/-- Witness for C3: the fresh 10-point recycle item against the one-user
server is accepted and lifts the total from 100; its resubmission conflicts
with the stored values and changes nothing. -/
theorem C3_idempotent_resubmission_witness :
    (processHabitLog srvOneUser 7 itemRecycle10 0 9000).2.status = Verdict.accepted ∧
    userPoints (processHabitLog srvOneUser 7 itemRecycle10 0 9000).1 7 =
      some (100 + clampedPoints srvOneUser 7 itemRecycle10 0) ∧
    processHabitLog (processHabitLog srvOneUser 7 itemRecycle10 0 9000).1 7 itemRecycle10
        0 9500 =
      ((processHabitLog srvOneUser 7 itemRecycle10 0 9000).1,
       { id := 11, status := Verdict.conflict, serverId := some 0,
         message := some "Log already exists on server",
         serverData := some { habitType := "recycle",
                              pointsAwarded := clampedPoints srvOneUser 7 itemRecycle10 0,
                              loggedAt := 5000 } }) := by
  have h := C3_idempotent_resubmission srvOneUser 7 itemRecycle10
      { id := 7, displayName := "U", ecoPoints := 100, isAnonymous := false, lastActive := 0 }
      0 9000 (by decide) (by decide) (by decide) (by decide) (by decide) (by decide)
  exact ⟨h.1, h.2.1, h.2.2 9500⟩

end EcoNest

namespace EcoNest

/-- Appending one ledger document adds its points to a day window's sum
exactly when the document falls inside the window. -/
theorem getTodayLogsForHabit_append (s s2 : ServerState) (l : LedgerLog)
    (uid : Nat) (cat : String) (ts : Nat) (h : s2.logs = s.logs ++ [l]) :
    getTodayLogsForHabit s2 uid cat ts =
      getTodayLogsForHabit s uid cat ts +
      (if l.userId = uid ∧ ts ≤ l.loggedAt ∧ l.habitType = cat then l.pointsAwarded
       else 0) := by
  simp only [getTodayLogsForHabit, h, List.filter_append, List.map_append, List.sum_append,
    List.filter_cons, List.filter_nil]
  split
  · rename_i hpred
    simp [of_decide_eq_true hpred]
  · rename_i hpred
    have hnp := fun hp => hpred (decide_eq_true hp)
    simp only [if_neg hnp]
    simp

/-- processHabitLog either leaves the server state unchanged, or (on its
accept path) appends exactly the validated log while its category window had
headroom, and the window sum plus the clamped points stays at or under the
daily cap. -/
theorem processHabitLog_accept_shape (s : ServerState) (uid : Nat) (item : SyncItem)
    (ts now : Nat) :
    (processHabitLog s uid item ts now).1 = s ∨
    (getTodayLogsForHabit s uid item.habitType ts < DAILY_CAP_PER_CATEGORY ∧
     (processHabitLog s uid item ts now).1.logs = s.logs ++ [insertedLog s uid item ts] ∧
     getTodayLogsForHabit s uid item.habitType ts + clampedPoints s uid item ts ≤
       DAILY_CAP_PER_CATEGORY) := by
  simp only [processHabitLog]
  split
  · exact Or.inl rfl
  split
  · exact Or.inl rfl
  split
  · exact Or.inl rfl
  split
  · exact Or.inl rfl
  rename_i hcap
  refine Or.inr ⟨by omega, rfl, ?_⟩
  simp only [clampedPoints]
  split
  · omega
  · rename_i hclamp
    omega

end EcoNest

namespace EcoNest

/-- One processHabitLog call keeps every (user, category, day) accepted-sum
at or under the daily cap. -/
theorem cap_step (s : ServerState) (uid : Nat) (item : SyncItem) (ts now : Nat)
    (cat : String)
    (h : getTodayLogsForHabit s uid cat ts ≤ DAILY_CAP_PER_CATEGORY) :
    getTodayLogsForHabit (processHabitLog s uid item ts now).1 uid cat ts ≤
      DAILY_CAP_PER_CATEGORY := by
  rcases processHabitLog_accept_shape s uid item ts now with hs | ⟨hroom, hlogs, hbound⟩
  · rw [hs]
    exact h
  · rw [getTodayLogsForHabit_append s _ _ uid cat ts hlogs]
    split
    · rename_i hpred
      rcases hpred with ⟨-, -, hcat⟩
      have hcat2 : item.habitType = cat := hcat
      rw [← hcat2] at h ⊢
      have : (insertedLog s uid item ts).pointsAwarded = clampedPoints s uid item ts := rfl
      rw [this]
      omega
    · simpa using h

/-- The syncBatch item loop keeps every (user, category, day) accepted-sum
at or under the daily cap, whatever items it is fed. -/
theorem cap_fold (uid ts now : Nat) (cat : String) :
    ∀ (its : List SyncItem) (s : ServerState) (acc : List SyncItemResult),
      getTodayLogsForHabit s uid cat ts ≤ DAILY_CAP_PER_CATEGORY →
      getTodayLogsForHabit ((its.foldl (syncFoldStep uid ts now) (s, acc)).1) uid cat ts ≤
        DAILY_CAP_PER_CATEGORY := by
  intro its
  induction its with
  | nil => intro s acc h; exact h
  | cons a its ih =>
    intro s acc h
    simp only [List.foldl_cons, syncFoldStep]
    exact ih _ _ (cap_step s uid a ts now cat h)

end EcoNest

namespace EcoNest

/-- Claim C4: per user, category and server day, over any sequence of
submissions the accepted (clamped) sum never exceeds the 50-point cap; a
valid fresh submission that would cross the cap while headroom remains is
accepted with its points clamped to exactly fill the remaining headroom
(never rejected); a valid fresh submission arriving at or above the cap gets
status error.  Submissions are taken with loggedAt inside the server's
current day window, which is what the cap sums over. -/
theorem C4_daily_cap :
    (∀ (uid ts now : Nat) (cat : String) (its : List SyncItem) (s : ServerState)
        (acc : List SyncItemResult),
      getTodayLogsForHabit s uid cat ts ≤ DAILY_CAP_PER_CATEGORY →
      getTodayLogsForHabit ((its.foldl (syncFoldStep uid ts now) (s, acc)).1) uid cat ts ≤
        DAILY_CAP_PER_CATEGORY) ∧
    (∀ (s : ServerState) (uid : Nat) (item : SyncItem) (ts now : Nat),
      findByClientId s.logs item.id = none →
      item.habitType ∈ VALID_HABIT_TYPES →
      BASE_POINTS_MIN ≤ item.pointsAwarded →
      item.pointsAwarded ≤ BASE_POINTS_MAX + STREAK_BONUS_14_DAYS →
      getTodayLogsForHabit s uid item.habitType ts < DAILY_CAP_PER_CATEGORY →
      DAILY_CAP_PER_CATEGORY <
        getTodayLogsForHabit s uid item.habitType ts + item.pointsAwarded →
      ts ≤ item.loggedAt →
      (processHabitLog s uid item ts now).2.status = Verdict.accepted ∧
      clampedPoints s uid item ts =
        DAILY_CAP_PER_CATEGORY - getTodayLogsForHabit s uid item.habitType ts ∧
      getTodayLogsForHabit (processHabitLog s uid item ts now).1 uid item.habitType ts =
        DAILY_CAP_PER_CATEGORY) ∧
    (∀ (s : ServerState) (uid : Nat) (item : SyncItem) (ts now : Nat),
      findByClientId s.logs item.id = none →
      item.habitType ∈ VALID_HABIT_TYPES →
      BASE_POINTS_MIN ≤ item.pointsAwarded →
      item.pointsAwarded ≤ BASE_POINTS_MAX + STREAK_BONUS_14_DAYS →
      DAILY_CAP_PER_CATEGORY ≤ getTodayLogsForHabit s uid item.habitType ts →
      (processHabitLog s uid item ts now).2.status = Verdict.error) := by
  refine ⟨?_, ?_, ?_⟩
  · intro uid ts now cat its s acc h
    exact cap_fold uid ts now cat its s acc h
  · intro s uid item ts now hfresh htype hlo hhi hroom hover hts
    have hstep := processHabitLog_accepts s uid item ts now hfresh htype hlo hhi hroom
    have hclamped : clampedPoints s uid item ts =
        DAILY_CAP_PER_CATEGORY - getTodayLogsForHabit s uid item.habitType ts := by
      simp only [clampedPoints, if_pos hover]
    have hlogs : (processHabitLog s uid item ts now).1.logs =
        s.logs ++ [insertedLog s uid item ts] := by
      rw [hstep]
    refine ⟨by rw [hstep], hclamped, ?_⟩
    rw [getTodayLogsForHabit_append s _ (insertedLog s uid item ts) uid item.habitType ts
      hlogs]
    rw [if_pos ⟨rfl, hts, rfl⟩]
    have hpts : (insertedLog s uid item ts).pointsAwarded = clampedPoints s uid item ts :=
      rfl
    rw [hpts, hclamped]
    omega
  · intro s uid item ts now hfresh htype hlo hhi hcapped
    have h1 : ¬ item.habitType ∉ VALID_HABIT_TYPES := fun hc => hc htype
    have hrange : ¬ (item.pointsAwarded < BASE_POINTS_MIN ∨
        BASE_POINTS_MAX + STREAK_BONUS_14_DAYS < item.pointsAwarded) := by
      push_neg
      exact ⟨hlo, hhi⟩
    simp only [processHabitLog, hfresh, if_neg h1, if_neg hrange, if_pos hcapped]

/-- Witness for C4: a two-item day stays under the cap from an empty day;
the 20-point claim against 40 existing points is accepted clamped to 10,
filling the day to exactly 50; a fresh valid item at a full 50-point day is
rejected with an error verdict. -/
theorem C4_daily_cap_witness :
    getTodayLogsForHabit
        (([itemRecycle10, itemRecycle20].foldl (syncFoldStep 7 0 9000) (srvOneUser, [])).1)
        7 "recycle" 0 ≤ DAILY_CAP_PER_CATEGORY ∧
    ((processHabitLog srvNearCap 7 itemRecycle20 0 9000).2.status = Verdict.accepted ∧
      clampedPoints srvNearCap 7 itemRecycle20 0 =
        DAILY_CAP_PER_CATEGORY - getTodayLogsForHabit srvNearCap 7 "recycle" 0 ∧
      getTodayLogsForHabit (processHabitLog srvNearCap 7 itemRecycle20 0 9000).1 7
        "recycle" 0 = DAILY_CAP_PER_CATEGORY) ∧
    (processHabitLog srvAtCap 7 itemRecycle10 0 9000).2.status = Verdict.error :=
  ⟨C4_daily_cap.1 7 0 9000 "recycle" [itemRecycle10, itemRecycle20] srvOneUser []
      (by decide),
   C4_daily_cap.2.1 srvNearCap 7 itemRecycle20 0 9000 (by decide) (by decide) (by decide)
      (by decide) (by decide) (by decide) (by decide),
   C4_daily_cap.2.2 srvAtCap 7 itemRecycle10 0 9000 (by decide) (by decide) (by decide)
      (by decide) (by decide)⟩

end EcoNest

namespace EcoNest

/-- Unfolding of countNotSynced over a cons cell. -/
theorem countNotSynced_cons (a : QueueEntry) (q : List QueueEntry) :
    countNotSynced (a :: q) =
      countNotSynced q + (if a.status = Status.synced then 0 else 1) := by
  by_cases ha : a.status = Status.synced
  · simp [countNotSynced, List.filter_cons, ha]
  · simp [countNotSynced, List.filter_cons, ha]

/-- A row rewrite that never changes whether a row counts as synced leaves
the not-synced count unchanged. -/
theorem countNotSynced_map_congr (f : QueueEntry → QueueEntry)
    (q : List QueueEntry)
    (h : ∀ e ∈ q, ((f e).status = Status.synced) = (e.status = Status.synced)) :
    countNotSynced (q.map f) = countNotSynced q := by
  induction q with
  | nil => rfl
  | cons a q ih =>
    rw [List.map_cons, countNotSynced_cons, countNotSynced_cons,
      ih (fun e he => h e (List.mem_cons_of_mem a he))]
    have hc := h a (List.mem_cons_self a q)
    by_cases hs : a.status = Status.synced
    · rw [if_pos hs, if_pos (hc.mpr hs)]
    · rw [if_neg hs, if_neg (fun hfs => hs (hc.mp hfs))]

/-- Marking the unique not-yet-synced row with a given id as synced drops
the not-synced count by exactly one. -/
theorem countNotSynced_update_synced (q : List QueueEntry) (id : Nat)
    (now : Nat) (serverId : Option Nat) (errorMessage : Option String)
    (hp : List.Pairwise (fun a b => a.id ≠ b.id) q)
    (hmem : ∃ e ∈ q, e.id = id ∧ e.status ≠ Status.synced) :
    countNotSynced (q.map (fun e =>
      if e.id = id then setStatusRow Status.synced now serverId errorMessage e else e)) + 1 =
      countNotSynced q := by
  induction q with
  | nil =>
    obtain ⟨e, he, -⟩ := hmem
    cases he
  | cons a q ih =>
    have hpc := List.pairwise_cons.mp hp
    rw [List.map_cons, countNotSynced_cons, countNotSynced_cons]
    by_cases hid : a.id = id
    · have hrest : q.map (fun e =>
          if e.id = id then setStatusRow Status.synced now serverId errorMessage e else e)
          = q := by
        refine map_ite_noop (fun e : QueueEntry => e.id = id) _ (fun e he hc => ?_)
        exact hpc.1 e he (hid.trans hc.symm)
      have hstat : a.status ≠ Status.synced := by
        obtain ⟨e, he, heid, hest⟩ := hmem
        rcases List.mem_cons.mp he with rfl | he2
        · exact hest
        · exact (hpc.1 e he2 (hid.trans heid.symm)).elim
      rw [if_pos hid, hrest]
      simp [setStatusRow, hstat]
    · have hmem2 : ∃ e ∈ q, e.id = id ∧ e.status ≠ Status.synced := by
        obtain ⟨e, he, heid, hest⟩ := hmem
        rcases List.mem_cons.mp he with rfl | he2
        · exact absurd heid hid
        · exact ⟨e, he2, heid, hest⟩
      rw [if_neg hid]
      have := ih hpc.2 hmem2
      omega

/-- Deleting the unique row with a given id, known not synced, drops the
not-synced count by exactly one. -/
theorem countNotSynced_erase (q : List QueueEntry) (id : Nat)
    (hp : List.Pairwise (fun a b => a.id ≠ b.id) q)
    (hmem : ∃ e ∈ q, e.id = id ∧ e.status ≠ Status.synced) :
    countNotSynced (q.filter (fun e => decide (e.id ≠ id))) + 1 = countNotSynced q := by
  induction q with
  | nil =>
    obtain ⟨e, he, -⟩ := hmem
    cases he
  | cons a q ih =>
    have hpc := List.pairwise_cons.mp hp
    rw [countNotSynced_cons]
    by_cases hid : a.id = id
    · have hrest : q.filter (fun e => decide (e.id ≠ id)) = q := by
        refine List.filter_eq_self.mpr (fun e he => ?_)
        exact decide_eq_true (fun hc => hpc.1 e he (hid.trans hc.symm))
      have hstat : a.status ≠ Status.synced := by
        obtain ⟨e, he, heid, hest⟩ := hmem
        rcases List.mem_cons.mp he with rfl | he2
        · exact hest
        · exact (hpc.1 e he2 (hid.trans heid.symm)).elim
      rw [List.filter_cons, if_neg (by simp [hid]), hrest]
      simp [hstat]
    · have hmem2 : ∃ e ∈ q, e.id = id ∧ e.status ≠ Status.synced := by
        obtain ⟨e, he, heid, hest⟩ := hmem
        rcases List.mem_cons.mp he with rfl | he2
        · exact absurd heid hid
        · exact ⟨e, he2, heid, hest⟩
      rw [List.filter_cons, if_pos (by simp [hid]), countNotSynced_cons]
      have := ih hpc.2 hmem2
      omega

end EcoNest

namespace EcoNest

/-- An id-preserving row rewrite keeps queue ids pairwise distinct. -/
theorem pairwise_ids_map (q : List QueueEntry) (f : QueueEntry → QueueEntry)
    (hf : ∀ e, (f e).id = e.id)
    (hp : List.Pairwise (fun a b => a.id ≠ b.id) q) :
    List.Pairwise (fun a b => a.id ≠ b.id) (q.map f) := by
  refine List.pairwise_map.mpr (hp.imp ?_)
  intro a b hab
  rw [hf a, hf b]
  exact hab

/-- The conditional row update of updateHabitLogStatus preserves row ids. -/
theorem update_fn_id (id : Nat) (st : Status) (now : Nat) (serverId : Option Nat)
    (errorMessage : Option String) :
    ∀ e : QueueEntry,
      (if e.id = id then setStatusRow st now serverId errorMessage e else e).id = e.id := by
  intro e
  by_cases h : e.id = id
  · simp [h, setStatusRow]
  · simp [h]

/-- Appending a pending row bumps the not-synced count by one. -/
theorem countNotSynced_append_pending (q : List QueueEntry) (e : QueueEntry)
    (he : e.status = Status.pending) :
    countNotSynced (q ++ [e]) = countNotSynced q + 1 := by
  simp [countNotSynced, List.filter_append, List.filter_cons, he]

/-- In a duplicate-free queue, every row carrying the id of a known
not-yet-synced row is itself that row, hence not synced. -/
theorem unsynced_of_unique (s : LocalState)
    (hp : List.Pairwise (fun a b => a.id ≠ b.id) s.queue) {id : Nat}
    (hpre : ∃ e ∈ s.queue, e.id = id ∧ e.status ≠ Status.synced) :
    ∀ e ∈ s.queue, e.id = id → e.status ≠ Status.synced := by
  obtain ⟨e0, he0, heid0, hst0⟩ := hpre
  intro e he heid
  have heq : e = e0 := eq_of_mem_of_pairwise_ids hp he he0 (heid.trans heid0.symm)
  rw [heq]
  exact hst0

/-- Claim C2 as amended: with unique queue ids, the stored counter equals
the number of not-yet-synced entries, pending and failed together, and this
identity is preserved by record, by marking a not-yet-synced entry synced,
by marking a not-yet-synced entry failed, by conflict resolution in either
direction on a not-yet-synced entry, and by undo of a pending entry. -/
theorem C2_unsynced_invariant (s : LocalState) (op : LocalOp)
    (hinv : QueueInv s) (hpre : opPre s op) : QueueInv (applyOp s op) := by
  obtain ⟨hp, hc⟩ := hinv
  rw [unsyncedEntriesCount] at hc
  cases op with
  | record id habitType points now =>
    constructor
    · show List.Pairwise _ (s.queue ++ [_])
      rw [List.pairwise_append]
      refine ⟨hp, List.pairwise_singleton _ _, ?_⟩
      intro a ha b hb
      rw [List.mem_singleton.mp hb]
      exact hpre a ha
    · show s.unsynced_count + 1 = _
      rw [unsyncedEntriesCount]
      show _ = countNotSynced (s.queue ++ [_])
      rw [countNotSynced_append_pending _ _ rfl, hc]
  | markSynced id serverId now =>
    constructor
    · exact pairwise_ids_map _ _ (update_fn_id id Status.synced now serverId none) hp
    · have hcount := countNotSynced_update_synced s.queue id now serverId none hp hpre
      show (if Status.synced = Status.synced then s.unsynced_count - 1
            else s.unsynced_count) = _
      rw [if_pos rfl, unsyncedEntriesCount]
      show s.unsynced_count - 1 = countNotSynced (s.queue.map _)
      omega
  | markFailed id msg now =>
    have huniq := unsynced_of_unique s hp hpre
    constructor
    · exact pairwise_ids_map _ _ (update_fn_id id Status.failed now none (some msg)) hp
    · have hcount : countNotSynced (s.queue.map (fun e =>
          if e.id = id then setStatusRow Status.failed now none (some msg) e else e)) =
          countNotSynced s.queue := by
        refine countNotSynced_map_congr _ _ (fun e he => ?_)
        by_cases hid : e.id = id
        · have hns := huniq e he hid
          simp [hid, setStatusRow, hns]
        · simp [hid]
      show (if Status.failed = Status.synced then s.unsynced_count - 1
            else s.unsynced_count) = _
      rw [if_neg (by decide), unsyncedEntriesCount]
      show s.unsynced_count = countNotSynced (s.queue.map _)
      omega
  | resolveConflict id res now =>
    have huniq := unsynced_of_unique s hp hpre
    have hfind : ∃ e0, s.queue.find? (fun e => decide (e.id = id)) = some e0 := by
      obtain ⟨e0, he0, heid0, -⟩ := hpre
      cases hf : s.queue.find? (fun e => decide (e.id = id)) with
      | some x => exact ⟨x, rfl⟩
      | none => exact absurd (List.find?_eq_none.mp hf e0 he0) (by simp [heid0])
    obtain ⟨e0, hf⟩ := hfind
    cases res with
    | keepLocal =>
      have happ : applyOp s (LocalOp.resolveConflict id Resolution.keepLocal now) =
          { s with queue := s.queue.map (fun e =>
              if e.id = id then { e with status := Status.pending, errorMessage := none }
              else e) } := by
        simp [applyOp, handleConflict, hf, Except.toOption]
      rw [happ]
      constructor
      · refine pairwise_ids_map _ _ (fun e => ?_) hp
        by_cases hid : e.id = id
        · simp [hid]
        · simp [hid]
      · show s.unsynced_count = _
        rw [unsyncedEntriesCount]
        show _ = countNotSynced (s.queue.map _)
        have hcount : countNotSynced (s.queue.map (fun e =>
            if e.id = id then { e with status := Status.pending, errorMessage := none }
            else e)) = countNotSynced s.queue := by
          refine countNotSynced_map_congr _ _ (fun e he => ?_)
          by_cases hid : e.id = id
          · have hns := huniq e he hid
            simp [hid, hns]
          · simp [hid]
        omega
    | useServer =>
      have happ : applyOp s (LocalOp.resolveConflict id Resolution.useServer now) =
          updateHabitLogStatus s id Status.synced none
            (some "Resolved: used server data") now := by
        simp [applyOp, handleConflict, hf, Except.toOption]
      rw [happ]
      constructor
      · exact pairwise_ids_map _ _
          (update_fn_id id Status.synced now none (some "Resolved: used server data")) hp
      · have hcount := countNotSynced_update_synced s.queue id now none
          (some "Resolved: used server data") hp hpre
        show (if Status.synced = Status.synced then s.unsynced_count - 1
              else s.unsynced_count) = _
        rw [if_pos rfl, unsyncedEntriesCount]
        show s.unsynced_count - 1 = countNotSynced (s.queue.map _)
        omega
  | undo id =>
    cases hf : s.queue.find? (fun e => decide (e.id = id)) with
    | none =>
      have happ : applyOp s (LocalOp.undo id) = s := by
        simp [applyOp, undoLastLog, hf, Except.toOption]
      rw [happ]
      exact ⟨hp, by rw [unsyncedEntriesCount]; exact hc⟩
    | some e0 =>
      have he0 : e0 ∈ s.queue := List.mem_of_find?_eq_some hf
      have heid0 : e0.id = id := by simpa using List.find?_some hf
      have hpend : e0.status = Status.pending := hpre e0 he0 heid0
      have happ : applyOp s (LocalOp.undo id) =
          { s with queue := s.queue.filter (fun e => decide (e.id ≠ id)),
                   unsynced_count := s.unsynced_count - 1,
                   total_eco_points := s.total_eco_points - e0.points } := by
        simp [applyOp, undoLastLog, hf, Except.toOption, deleteHabitLog, hpend]
      rw [happ]
      constructor
      · exact hp.sublist (List.filter_sublist _)
      · have hcount := countNotSynced_erase s.queue id hp
          ⟨e0, he0, heid0, by rw [hpend]; decide⟩
        show s.unsynced_count - 1 = _
        rw [unsyncedEntriesCount]
        show _ = countNotSynced (s.queue.filter _)
        omega

/-- Witness for C2 as amended: recording one habit in the initialized store
preserves the counter identity. -/
theorem C2_unsynced_invariant_witness :
    QueueInv (applyOp emptyLocal (LocalOp.record 1 "recycle" 10 100)) :=
  C2_unsynced_invariant emptyLocal (LocalOp.record 1 "recycle" 10 100)
    ⟨List.Pairwise.nil, rfl⟩ (fun e he => absurd he (List.not_mem_nil e))

end EcoNest
